import Mathlib

/-!
Shallow embedding of the sg-rental-rag retrieval pipeline.

Source files embedded:
  - src/rag/reranker.py   (DocumentReranker.rerank)
  - src/rag/chain.py      (run_rag_query)
  - src/rag/retriever.py  (get_embeddings, load_vectorstore)
  - src/ingest.py         (check_url_domain_allowed)
  - src/config.py         (FINAL_RETRIEVAL_K default)

Strings are modelled as List Char.  Machine effects are made explicit:
the cross-encoder is a parameter scoring a (query, text) pair; the LLM
backend is a parameter that either returns an answer or raises, modelled
with Except; the number of backend invocations is recorded in the result
so that claims about when the backends are invoked are statable.
-/

namespace SgRag

/-! ### Data model (langchain_core.documents.Document, restricted to the
fields the pipeline reads: page_content, metadata title / url) -/

structure Metadata where
  title : Option (List Char)
  url : Option (List Char)
deriving DecidableEq

structure Document where
  page_content : List Char
  metadata : Metadata
deriving DecidableEq

/-- src/config.py: FINAL_RETRIEVAL_K default value 8. -/
def FINAL_RETRIEVAL_K : Nat := 8

/-! ### src/rag/reranker.py : DocumentReranker.rerank

The cross-encoder model is abstracted as a pure scoring function
(score query text); the source calls predict on the list of
(query, page_content truncated to 500) pairs, producing one scalar per
pair.  modelCalls records how many times the scoring model was invoked
(0 or 1), mirroring the early return on an empty candidate list.
Python sorts scored pairs stably by descending score; List.mergeSort
with the comparison (b.2 <= a.2) is the same stable descending sort. -/

structure RerankOutput where
  docs : List Document
  modelCalls : Nat
deriving DecidableEq

def rerank (score : List Char → List Char → Int) (query : List Char)
    (documents : List Document) (top_k : Nat) : RerankOutput :=
  if documents.isEmpty then
    ⟨[], 0⟩
  else
    let pairs := documents.map (fun doc => (query, doc.page_content.take 500))
    let scores := pairs.map (fun p => score p.1 p.2)
    let scored_docs := documents.zip scores
    let sorted := scored_docs.mergeSort (fun a b => decide (b.2 ≤ a.2))
    ⟨(sorted.take top_k).map Prod.fst, 1⟩

/-! ### src/rag/chain.py : run_rag_query

The retriever is a parameter from question to candidate documents; the
LLM backend is a parameter from (context, question) to either an answer
or a raised exception message.  llmCalls records backend invocations;
sourceDocs is the local retrieved_docs list at citation-building time. -/

structure Citation where
  title : List Char
  url : List Char
  snippet : List Char
deriving DecidableEq

structure QueryResult where
  answer : List Char
  citations : List Citation
  sourceDocs : List Document
  llmCalls : Nat
deriving DecidableEq

/-- The join "\n\n".join(doc.page_content for doc in docs). -/
def formatDocs (docs : List Document) : List Char :=
  List.intercalate "\n\n".data (docs.map Document.page_content)

/-- The fixed fallback answer of src/rag/chain.py line 151. -/
def notCoveredMsg : List Char :=
  "The knowledge base does not cover this question. Please consult official agencies (HDB, CEA, or URA).".data

/-- The answer built in the except branch of src/rag/chain.py line 132. -/
def errorAnswer (e : List Char) : List Char :=
  "Error generating answer: ".data ++ e

/-- One citation dict from a Document (src/rag/chain.py lines 143-147). -/
def mkCitation (doc : Document) : Citation :=
  { title := doc.metadata.title.getD "Unknown Title".data
    url := doc.metadata.url.getD "".data
    snippet :=
      if doc.page_content.length > 200 then doc.page_content.take 200 ++ "...".data
      else doc.page_content }

def run_rag_query (retriever : List Char → List Document)
    (score : List Char → List Char → Int)
    (llm : List Char → List Char → Except (List Char) (List Char))
    (question : List Char) : QueryResult :=
  let initial_docs := retriever question
  let reranked := (rerank score question initial_docs FINAL_RETRIEVAL_K).docs
  let context := formatDocs reranked
  -- try: invoke the backend; except: answer becomes the error message and
  -- retrieved_docs is reassigned to the empty list (lines 121-133)
  let outcome :=
    match llm context question with
    | Except.ok content => (content, reranked)
    | Except.error e => (errorAnswer e, ([] : List Document))
  -- citation loop over retrieved_docs (lines 139-147); in this typed model
  -- every element is a Document so the isinstance guard always passes
  let citations := outcome.2.map mkCitation
  -- line 150: if not citations, overwrite the answer; the elif branch
  -- (line 153) only executes pass and is a no-op
  let answer := if citations.isEmpty then notCoveredMsg else outcome.1
  { answer := answer
    citations := citations
    sourceDocs := outcome.2
    llmCalls := 1 }

/-! ### src/rag/retriever.py : get_embeddings

The module-level cache is a pair of globals (_embeddings_instance,
_embeddings_model_name); instances are modelled as records carrying the
model name and a construction counter so that distinct constructions are
distinguishable.  The state threads the cache and the counter. -/

structure EmbInstance where
  model_name : List Char
  ctorId : Nat
deriving DecidableEq

structure EmbState where
  cached : Option EmbInstance
  nextId : Nat
deriving DecidableEq

def defaultEmbeddingModel : List Char :=
  "sentence-transformers/paraphrase-multilingual-MiniLM-L12-v2".data

def get_embeddings (s : EmbState) (model_name : Option (List Char)) :
    EmbInstance × EmbState :=
  let name := model_name.getD defaultEmbeddingModel
  match s.cached with
  | some inst =>
    if inst.model_name = name then (inst, s)
    else
      let fresh : EmbInstance := ⟨name, s.nextId⟩
      (fresh, ⟨some fresh, s.nextId + 1⟩)
  | none =>
    let fresh : EmbInstance := ⟨name, s.nextId⟩
    (fresh, ⟨some fresh, s.nextId + 1⟩)

/-! ### src/rag/retriever.py : load_vectorstore

File-system and deserialization effects are explicit inputs: whether each
persisted artifact exists, and the outcome of FAISS.load_local (either a
raised exception message or a loaded store reporting its vector count).
The embeddings argument of the source does not affect the Option shape of
the result and is omitted. -/

structure Vectorstore where
  ntotal : Nat
deriving DecidableEq

def load_vectorstore (faiss_exists pkl_exists : Bool)
    (load_local : Except (List Char) Vectorstore) : Option Vectorstore :=
  if !faiss_exists || !pkl_exists then none
  else
    match load_local with
    | Except.error _ => none
    | Except.ok vectorstore =>
      if vectorstore.ntotal = 0 then none else some vectorstore

/-! ### src/ingest.py : check_url_domain_allowed

netloc extraction follows urllib.parse.urlparse for the relevant shapes:
an optional scheme (a leading run of letters, digits, plus, minus, dot
starting with a letter, ended by a colon) is stripped; a netloc is present
only when the remainder starts with two slashes and extends to the first
slash, question mark or hash. -/

def allowed_domains : List (List Char) :=
  ["gov.sg".data, "hdb.gov.sg".data, "cea.gov.sg".data, "ura.gov.sg".data]

def isSchemeChar (c : Char) : Bool :=
  c.isAlpha || c.isDigit || c == '+' || c == '-' || c == '.'

def splitScheme (url : List Char) : List Char :=
  match url.findIdx? (fun c => c == ':') with
  | none => url
  | some i =>
    if 0 < i ∧ (url.headD ' ').isAlpha ∧ (url.take i).all isSchemeChar then
      url.drop (i + 1)
    else url

def netloc (url : List Char) : List Char :=
  match splitScheme url with
  | '/' :: '/' :: rest =>
    rest.takeWhile (fun c => !(c == '/' || c == '?' || c == '#'))
  | _ => []

def check_url_domain_allowed (url : List Char) : Bool :=
  let domain := (netloc url).map Char.toLower
  allowed_domains.any
    (fun allowed => domain == allowed || List.isSuffixOf ('.' :: allowed) domain)

end SgRag

namespace SgRag

/-! ## Theorems -/

/-- Zipping a list with its image under f pairs each element with its own
image. -/
theorem zip_map_self {α : Type} {β : Type} (f : α → β) :
    ∀ l : List α, l.zip (l.map f) = l.map (fun x => (x, f x))
  | [] => rfl
  | x :: xs => by simp [zip_map_self f xs]

/-- Projecting the first components back out of the self-pairing map
recovers the original list. -/
theorem map_fst_pair_map {α : Type} {β : Type} (f : α → β) :
    ∀ l : List α, (l.map (fun x => (x, f x))).map Prod.fst = l
  | [] => rfl
  | x :: xs => by simp [map_fst_pair_map f xs]

/-- Closed form of rerank on a nonempty candidate list. -/
theorem rerank_cons_eq (score : List Char → List Char → Int) (query : List Char)
    (d : Document) (ds : List Document) (top_k : Nat) :
    rerank score query (d :: ds) top_k =
      ⟨((((d :: ds).map
            (fun x => (x, score query (x.page_content.take 500)))).mergeSort
          (fun a b => decide (b.2 ≤ a.2))).take top_k).map Prod.fst, 1⟩ := by
  unfold rerank
  simp [List.map_map, zip_map_self, Function.comp]

/-- C4: the reranked list is bounded by top_k and by the candidate count,
and an empty candidate list yields an empty result without invoking the
scoring model (modelCalls = 0). -/
theorem rerank_length_bound (score : List Char → List Char → Int)
    (query : List Char) (documents : List Document) (top_k : Nat) :
    (rerank score query documents top_k).docs.length ≤ top_k ∧
    (rerank score query documents top_k).docs.length ≤ documents.length ∧
    rerank score query [] top_k = ⟨[], 0⟩ := by
  refine ⟨?_, ?_, rfl⟩ <;>
  · cases documents with
    | nil => simp [rerank]
    | cons d ds =>
      rw [rerank_cons_eq]
      simp

/-- C5: the reranked output is ordered by descending cross-encoder score,
where each score is computed on the (query, truncated content) pair the
source hands to the model. -/
theorem rerank_sorted_by_descending_score (score : List Char → List Char → Int)
    (query : List Char) (documents : List Document) (top_k : Nat) :
    (rerank score query documents top_k).docs.Pairwise
      (fun a b =>
        score query (b.page_content.take 500) ≤
          score query (a.page_content.take 500)) := by
  cases documents with
  | nil => simp [rerank]
  | cons d0 ds =>
    rw [rerank_cons_eq]
    have hsorted :
        ((((d0 :: ds).map
            (fun x => (x, score query (x.page_content.take 500)))).mergeSort
          (fun a b => decide (b.2 ≤ a.2))).Pairwise
            (fun a b => decide (b.2 ≤ a.2) = true)) := by
      apply List.sorted_mergeSort
      · intro a b c hab hbc
        simp only [decide_eq_true_iff] at *
        omega
      · intro a b
        simp only [Bool.or_eq_true, decide_eq_true_iff]
        omega
    have htake := hsorted.sublist (List.take_sublist top_k _)
    have hmem : ∀ p ∈ (((d0 :: ds).map
            (fun x => (x, score query (x.page_content.take 500)))).mergeSort
          (fun a b => decide (b.2 ≤ a.2))).take top_k,
        p.2 = score query (p.1.page_content.take 500) := by
      intro p hp
      have hp2 := List.mem_mergeSort.mp (List.take_subset _ _ hp)
      obtain ⟨x, _, rfl⟩ := List.mem_map.mp hp2
      rfl
    rw [List.pairwise_map]
    refine List.Pairwise.imp_of_mem ?_ htake
    intro a b ha hb hr
    have h2 := hmem a ha
    have h3 := hmem b hb
    simp only [decide_eq_true_iff] at hr
    rw [h2, h3] at hr
    exact hr

/-- C10: reranking never alters documents: every output Document is one of
the input Documents (page_content and metadata included), and when top_k
covers the whole candidate list the output is a permutation of the input,
so the 500-character truncation never drops a chunk from consideration. -/
theorem rerank_returns_input_documents (score : List Char → List Char → Int)
    (query : List Char) (documents : List Document) (top_k : Nat) :
    (∀ d, d ∈ (rerank score query documents top_k).docs → d ∈ documents) ∧
    (documents.length ≤ top_k →
      (rerank score query documents top_k).docs.Perm documents) := by
  cases documents with
  | nil => simp [rerank]
  | cons d0 ds =>
    rw [rerank_cons_eq]
    constructor
    · intro d hd
      obtain ⟨p, hp, rfl⟩ := List.mem_map.mp hd
      have hp2 := List.mem_mergeSort.mp (List.take_subset _ _ hp)
      obtain ⟨x, hx, rfl⟩ := List.mem_map.mp hp2
      exact hx
    · intro hlen
      rw [List.take_of_length_le (by simpa using hlen)]
      have hperm :=
        (List.mergeSort_perm ((d0 :: ds).map
            (fun x => (x, score query (x.page_content.take 500))))
          (fun a b => decide (b.2 ≤ a.2))).map Prod.fst
      rw [map_fst_pair_map] at hperm
      exact hperm

/-- Witness for C10 at a concrete input: the single candidate document is
returned and is a member of the input list; with top_k covering the list
the output is a permutation of the input. -/
theorem rerank_returns_input_documents_witness :
    ((⟨"hello".data, ⟨none, none⟩⟩ : Document) ∈
      [(⟨"hello".data, ⟨none, none⟩⟩ : Document)]) ∧
    (rerank (fun _ _ => (0 : Int)) "q".data
        [(⟨"hello".data, ⟨none, none⟩⟩ : Document)] 1).docs.Perm
      [(⟨"hello".data, ⟨none, none⟩⟩ : Document)] :=
  ⟨(rerank_returns_input_documents (fun _ _ => (0 : Int)) "q".data
      [⟨"hello".data, ⟨none, none⟩⟩] 1).1 ⟨"hello".data, ⟨none, none⟩⟩
      (by rw [rerank_cons_eq]; simp),
   (rerank_returns_input_documents (fun _ _ => (0 : Int)) "q".data
      [⟨"hello".data, ⟨none, none⟩⟩] 1).2 (by decide)⟩

end SgRag

namespace SgRag

/-- C1 (amended): whenever the generation backend returns successfully on
the context assembled from the reranked set, the returned citations are
exactly the per-document projection of that same reranked set, in order
and count. -/
theorem citations_match_generation_context
    (retriever : List Char → List Document)
    (score : List Char → List Char → Int)
    (llm : List Char → List Char → Except (List Char) (List Char))
    (question : List Char)
    (h : ∃ a, llm
        (formatDocs (rerank score question (retriever question)
          FINAL_RETRIEVAL_K).docs) question = Except.ok a) :
    (run_rag_query retriever score llm question).citations =
      ((rerank score question (retriever question)
        FINAL_RETRIEVAL_K).docs).map mkCitation := by
  obtain ⟨a, ha⟩ := h
  simp [run_rag_query, ha]

/-- Witness for C1 at a concrete input where generation succeeds. -/
theorem citations_match_generation_context_witness :
    (run_rag_query (fun _ => [⟨"hello".data, ⟨some "T".data, some "u".data⟩⟩])
        (fun _ _ => (0 : Int)) (fun _ _ => Except.ok "ans".data)
        "q".data).citations =
      ((rerank (fun _ _ => (0 : Int)) "q".data
          [⟨"hello".data, ⟨some "T".data, some "u".data⟩⟩]
          FINAL_RETRIEVAL_K).docs).map mkCitation :=
  citations_match_generation_context _ _ _ _ ⟨"ans".data, rfl⟩

/-- C1 (counterexample): at a query where the generation backend raises,
the returned citations are empty while the reranked set that formed the
generation context is not, so citations do not equal the projection of
the reranked set for every query. -/
theorem citations_diverge_on_generation_error :
    (run_rag_query (fun _ => [⟨"hello".data, ⟨some "T".data, some "u".data⟩⟩])
        (fun _ _ => (0 : Int)) (fun _ _ => Except.error "boom".data)
        "q".data).citations ≠
      ((rerank (fun _ _ => (0 : Int)) "q".data
          [⟨"hello".data, ⟨some "T".data, some "u".data⟩⟩]
          FINAL_RETRIEVAL_K).docs).map mkCitation := by
  have h1 : (run_rag_query
      (fun _ => [⟨"hello".data, ⟨some "T".data, some "u".data⟩⟩])
      (fun _ _ => (0 : Int)) (fun _ _ => Except.error "boom".data)
      "q".data).citations = [] := rfl
  have h2 : ((rerank (fun _ _ => (0 : Int)) "q".data
      [⟨"hello".data, ⟨some "T".data, some "u".data⟩⟩]
      FINAL_RETRIEVAL_K).docs).map mkCitation =
      [mkCitation ⟨"hello".data, ⟨some "T".data, some "u".data⟩⟩] := by
    rw [rerank_cons_eq]
    simp only [List.map_cons, List.map_nil, List.mergeSort_singleton]
    rfl
  intro h
  rw [h1, h2] at h
  exact List.cons_ne_nil _ _ h.symm

/-- C2: at an input where retrieval and reranking succeed with one
document but the generation backend raises, run_rag_query reports the
fixed not-covered message with an empty citation list: the except branch
clears retrieved_docs, so the error answer is overwritten and the
citations are not populated from the reranked set. -/
theorem generation_error_masked_as_not_covered :
    (run_rag_query (fun _ => [⟨"hello".data, ⟨some "T".data, some "u".data⟩⟩])
        (fun _ _ => (0 : Int)) (fun _ _ => Except.error "timeout".data)
        "q".data).answer = notCoveredMsg ∧
    (run_rag_query (fun _ => [⟨"hello".data, ⟨some "T".data, some "u".data⟩⟩])
        (fun _ _ => (0 : Int)) (fun _ _ => Except.error "timeout".data)
        "q".data).citations = [] := by
  exact ⟨rfl, rfl⟩

/-- C3 (counterexample): with an empty candidate set the reranked set is
empty, yet the generation backend is still invoked (llmCalls = 1), so the
pipeline does not short-circuit around generation. -/
theorem empty_reranked_still_invokes_generation :
    (run_rag_query (fun _ => []) (fun _ _ => (0 : Int))
        (fun _ _ => Except.ok "some answer".data) "q".data).llmCalls = 1 ∧
    (run_rag_query (fun _ => []) (fun _ _ => (0 : Int))
        (fun _ _ => Except.ok "some answer".data) "q".data).answer =
      notCoveredMsg ∧
    (run_rag_query (fun _ => []) (fun _ _ => (0 : Int))
        (fun _ _ => Except.ok "some answer".data) "q".data).citations = [] := by
  exact ⟨rfl, rfl, rfl⟩

/-- C3 (amended): whenever the reranked set is empty, run_rag_query
returns the fixed not-covered answer and an empty citation list, but the
generation backend is still invoked exactly once (its output discarded). -/
theorem empty_reranked_fixed_answer
    (retriever : List Char → List Document)
    (score : List Char → List Char → Int)
    (llm : List Char → List Char → Except (List Char) (List Char))
    (question : List Char)
    (h : (rerank score question (retriever question)
      FINAL_RETRIEVAL_K).docs = []) :
    (run_rag_query retriever score llm question).answer = notCoveredMsg ∧
    (run_rag_query retriever score llm question).citations = [] ∧
    (run_rag_query retriever score llm question).llmCalls = 1 := by
  rcases hl : llm (formatDocs (rerank score question (retriever question)
      FINAL_RETRIEVAL_K).docs) question with e | a <;>
    simp [run_rag_query, h, hl] <;>
    simp [h] at hl <;> simp [hl]

/-- Witness for C3 at a concrete input with an empty candidate set. -/
theorem empty_reranked_fixed_answer_witness :
    (run_rag_query (fun _ => []) (fun _ _ => (0 : Int))
        (fun _ _ => Except.ok "ans".data) "q".data).answer = notCoveredMsg ∧
    (run_rag_query (fun _ => []) (fun _ _ => (0 : Int))
        (fun _ _ => Except.ok "ans".data) "q".data).citations = [] ∧
    (run_rag_query (fun _ => []) (fun _ _ => (0 : Int))
        (fun _ _ => Except.ok "ans".data) "q".data).llmCalls = 1 :=
  empty_reranked_fixed_answer _ _ _ _ rfl

/-- C7: every citation built by run_rag_query carries a snippet that is
the 200-character prefix of its source chunk content followed by the
continuation marker when the content is longer than 200 characters, and
the unchanged content otherwise. -/
theorem citation_snippets_bounded
    (retriever : List Char → List Document)
    (score : List Char → List Char → Int)
    (llm : List Char → List Char → Except (List Char) (List Char))
    (question : List Char) :
    List.Forall₂
      (fun (c : Citation) (d : Document) =>
        (200 < d.page_content.length →
          c.snippet = d.page_content.take 200 ++ "...".data) ∧
        (d.page_content.length ≤ 200 → c.snippet = d.page_content))
      (run_rag_query retriever score llm question).citations
      (run_rag_query retriever score llm question).sourceDocs := by
  have key : ∀ l : List Document,
      List.Forall₂
        (fun (c : Citation) (d : Document) =>
          (200 < d.page_content.length →
            c.snippet = d.page_content.take 200 ++ "...".data) ∧
          (d.page_content.length ≤ 200 → c.snippet = d.page_content))
        (l.map mkCitation) l := by
    intro l
    induction l with
    | nil => exact List.Forall₂.nil
    | cons d ds ih =>
      refine List.Forall₂.cons ⟨?_, ?_⟩ ih
      · intro hlen
        simp [mkCitation, hlen]
      · intro hlen
        simp [mkCitation, Nat.not_lt.mpr hlen]
  have hcit : (run_rag_query retriever score llm question).citations =
      (run_rag_query retriever score llm question).sourceDocs.map mkCitation := by
    rcases hl : llm (formatDocs (rerank score question (retriever question)
        FINAL_RETRIEVAL_K).docs) question with e | a <;>
      simp [run_rag_query, hl]
  rw [hcit]
  exact key _

end SgRag

namespace SgRag

set_option linter.unnecessarySeqFocus false

/-- C6: load_vectorstore returns none exactly when an artifact is missing,
deserialization raised, or the loaded index reports zero vectors; and any
returned store is the successfully deserialized one with a positive
vector count and both artifacts present. -/
theorem load_vectorstore_absent_conditions
    (faiss_exists pkl_exists : Bool)
    (load_local : Except (List Char) Vectorstore) :
    (load_vectorstore faiss_exists pkl_exists load_local = none ↔
      faiss_exists = false ∨ pkl_exists = false ∨
      (∃ e, load_local = Except.error e) ∨
      (∃ vs, load_local = Except.ok vs ∧ vs.ntotal = 0)) ∧
    (∀ vs, load_vectorstore faiss_exists pkl_exists load_local = some vs →
      faiss_exists = true ∧ pkl_exists = true ∧
      load_local = Except.ok vs ∧ 0 < vs.ntotal) := by
  cases faiss_exists <;> cases pkl_exists <;>
    rcases load_local with e | vs <;>
    constructor <;>
    simp [load_vectorstore] <;>
    (by_cases h : vs.ntotal = 0 <;> simp_all <;> omega)

/-- Witness for C6 at a concrete input: both artifacts present and a
successfully loaded store with five vectors is returned as-is. -/
theorem load_vectorstore_absent_conditions_witness :
    true = true ∧ true = true ∧
    (Except.ok ⟨5⟩ : Except (List Char) Vectorstore) = Except.ok ⟨5⟩ ∧
    0 < (Vectorstore.mk 5).ntotal :=
  (load_vectorstore_absent_conditions true true (Except.ok ⟨5⟩)).2 ⟨5⟩ rfl

/-- C9 (amended): the cache retains the single most recently requested
model identifier: immediately re-requesting the same identifier returns
the cached instance and leaves the cache state unchanged, constructing
nothing new. -/
theorem get_embeddings_repeat_returns_cached
    (s : EmbState) (model_name : Option (List Char)) :
    get_embeddings (get_embeddings s model_name).2 model_name =
      get_embeddings s model_name := by
  rcases s with ⟨cached, nextId⟩
  rcases cached with _ | inst
  · simp [get_embeddings]
  · by_cases h : inst.model_name = model_name.getD defaultEmbeddingModel <;>
      simp [get_embeddings, h]

/-- C9 (counterexample): the cache is not per model identifier.  After
requesting model a then model b, re-requesting model a constructs a new
instance (a different construction id) instead of returning the instance
built by the first call, so instances for identifiers requested earlier
in the process are not retained. -/
theorem get_embeddings_not_per_model_cached :
    (get_embeddings
        (get_embeddings
          (get_embeddings ⟨none, 0⟩ (some "a".data)).2
          (some "b".data)).2
        (some "a".data)).1 ≠
      (get_embeddings ⟨none, 0⟩ (some "a".data)).1 := by
  decide

/-- C8: the allow-list check succeeds exactly when the lowercased netloc
of the url equals one of the four allowed government domains or ends with
a dot followed by one of them; in particular the hdb subdomain url passes
and the url hiding the domain in its path does not. -/
theorem check_url_domain_allowed_iff :
    (∀ url : List Char,
      check_url_domain_allowed url = true ↔
        ∃ d ∈ allowed_domains,
          (netloc url).map Char.toLower = d ∨
          ('.' :: d) <:+ (netloc url).map Char.toLower) ∧
    check_url_domain_allowed "https://www.hdb.gov.sg/x".data = true ∧
    check_url_domain_allowed "https://evil.com/hdb.gov.sg".data = false := by
  refine ⟨fun url => ?_, by rfl, by rfl⟩
  simp [check_url_domain_allowed, List.any_eq_true,
    List.isSuffixOf_iff_suffix]

end SgRag
